import Mathlib

set_option maxRecDepth 100000

/-!
Verification development for the `AccountManager` service (`src/index.js`):
referral-gated signup, session-receipt checking, wallet binding/reset and
account querying.  The JavaScript code is shallowly embedded: every pure
computation is translated to an executable Lean function, the storage /
captcha / email collaborators become explicit state or outcome parameters,
and promise rejections become `Except` errors.

The code hashes with `ethUtil.sha3`, which is Keccak-256 (original Keccak
padding, not NIST SHA-3).  The checksum-address logic and the fabricated
account fields depend on concrete digest values, so Keccak-256 is embedded
in full below (state = twenty-five 64-bit lanes kept as `Nat` mod 2^64).
-/

namespace Poker

/-- The value 2^64 - 1, the 64-bit lane mask. -/
def mask64 : Nat := 18446744073709551615

/-- Left-rotation of a 64-bit lane (`n` must be < 64). -/
def rotl64 (x n : Nat) : Nat :=
  ((x <<< n) ||| (x >>> (64 - n))) &&& mask64

/-- Bitwise complement of a 64-bit lane. -/
def not64 (x : Nat) : Nat := x ^^^ mask64

/-- Keccak state: lanes `a{x}{y}` for x (column), y (row); lane index x+5y. -/
structure KState where
  a00 : Nat
  a10 : Nat
  a20 : Nat
  a30 : Nat
  a40 : Nat
  a01 : Nat
  a11 : Nat
  a21 : Nat
  a31 : Nat
  a41 : Nat
  a02 : Nat
  a12 : Nat
  a22 : Nat
  a32 : Nat
  a42 : Nat
  a03 : Nat
  a13 : Nat
  a23 : Nat
  a33 : Nat
  a43 : Nat
  a04 : Nat
  a14 : Nat
  a24 : Nat
  a34 : Nat
  a44 : Nat

/-- The all-zero Keccak state. -/
def kZero : KState :=
  ⟨0, 0, 0, 0, 0, 0, 0, 0, 0, 0, 0, 0, 0, 0, 0, 0, 0, 0, 0, 0, 0, 0, 0, 0, 0⟩

/-- The 24 Keccak round constants. -/
def keccakRC : List Nat :=
  [1, 32898, 9223372036854808714,
   9223372039002292224, 32907, 2147483649,
   9223372039002292353, 9223372036854808585, 138,
   136, 2147516425, 2147483658,
   2147516555, 9223372036854775947, 9223372036854808713,
   9223372036854808579, 9223372036854808578, 9223372036854775936,
   32778, 9223372039002259466, 9223372039002292353,
   9223372036854808704, 2147483649, 9223372039002292232]

/-- One Keccak-f[1600] round: theta, rho, pi, chi, iota with constant `rc`. -/
def keccakRound (s : KState) (rc : Nat) : KState :=
  let c0 := s.a00 ^^^ s.a01 ^^^ s.a02 ^^^ s.a03 ^^^ s.a04
  let c1 := s.a10 ^^^ s.a11 ^^^ s.a12 ^^^ s.a13 ^^^ s.a14
  let c2 := s.a20 ^^^ s.a21 ^^^ s.a22 ^^^ s.a23 ^^^ s.a24
  let c3 := s.a30 ^^^ s.a31 ^^^ s.a32 ^^^ s.a33 ^^^ s.a34
  let c4 := s.a40 ^^^ s.a41 ^^^ s.a42 ^^^ s.a43 ^^^ s.a44
  let d0 := c4 ^^^ rotl64 c1 1
  let d1 := c0 ^^^ rotl64 c2 1
  let d2 := c1 ^^^ rotl64 c3 1
  let d3 := c2 ^^^ rotl64 c4 1
  let d4 := c3 ^^^ rotl64 c0 1
  let t00 := s.a00 ^^^ d0
  let t10 := s.a10 ^^^ d1
  let t20 := s.a20 ^^^ d2
  let t30 := s.a30 ^^^ d3
  let t40 := s.a40 ^^^ d4
  let t01 := s.a01 ^^^ d0
  let t11 := s.a11 ^^^ d1
  let t21 := s.a21 ^^^ d2
  let t31 := s.a31 ^^^ d3
  let t41 := s.a41 ^^^ d4
  let t02 := s.a02 ^^^ d0
  let t12 := s.a12 ^^^ d1
  let t22 := s.a22 ^^^ d2
  let t32 := s.a32 ^^^ d3
  let t42 := s.a42 ^^^ d4
  let t03 := s.a03 ^^^ d0
  let t13 := s.a13 ^^^ d1
  let t23 := s.a23 ^^^ d2
  let t33 := s.a33 ^^^ d3
  let t43 := s.a43 ^^^ d4
  let t04 := s.a04 ^^^ d0
  let t14 := s.a14 ^^^ d1
  let t24 := s.a24 ^^^ d2
  let t34 := s.a34 ^^^ d3
  let t44 := s.a44 ^^^ d4
  -- rho (rotate offsets) + pi (lane permutation): b[y][(2x+3y)%5] = rotl t[x][y]
  let b00 := t00
  let b13 := rotl64 t01 36
  let b21 := rotl64 t02 3
  let b34 := rotl64 t03 41
  let b42 := rotl64 t04 18
  let b02 := rotl64 t10 1
  let b10 := rotl64 t11 44
  let b23 := rotl64 t12 10
  let b31 := rotl64 t13 45
  let b44 := rotl64 t14 2
  let b04 := rotl64 t20 62
  let b12 := rotl64 t21 6
  let b20 := rotl64 t22 43
  let b33 := rotl64 t23 15
  let b41 := rotl64 t24 61
  let b01 := rotl64 t30 28
  let b14 := rotl64 t31 55
  let b22 := rotl64 t32 25
  let b30 := rotl64 t33 21
  let b43 := rotl64 t34 56
  let b03 := rotl64 t40 27
  let b11 := rotl64 t41 20
  let b24 := rotl64 t42 39
  let b32 := rotl64 t43 8
  let b40 := rotl64 t44 14
  -- chi
  let u00 := b00 ^^^ (not64 b10 &&& b20)
  let u10 := b10 ^^^ (not64 b20 &&& b30)
  let u20 := b20 ^^^ (not64 b30 &&& b40)
  let u30 := b30 ^^^ (not64 b40 &&& b00)
  let u40 := b40 ^^^ (not64 b00 &&& b10)
  let u01 := b01 ^^^ (not64 b11 &&& b21)
  let u11 := b11 ^^^ (not64 b21 &&& b31)
  let u21 := b21 ^^^ (not64 b31 &&& b41)
  let u31 := b31 ^^^ (not64 b41 &&& b01)
  let u41 := b41 ^^^ (not64 b01 &&& b11)
  let u02 := b02 ^^^ (not64 b12 &&& b22)
  let u12 := b12 ^^^ (not64 b22 &&& b32)
  let u22 := b22 ^^^ (not64 b32 &&& b42)
  let u32 := b32 ^^^ (not64 b42 &&& b02)
  let u42 := b42 ^^^ (not64 b02 &&& b12)
  let u03 := b03 ^^^ (not64 b13 &&& b23)
  let u13 := b13 ^^^ (not64 b23 &&& b33)
  let u23 := b23 ^^^ (not64 b33 &&& b43)
  let u33 := b33 ^^^ (not64 b43 &&& b03)
  let u43 := b43 ^^^ (not64 b03 &&& b13)
  let u04 := b04 ^^^ (not64 b14 &&& b24)
  let u14 := b14 ^^^ (not64 b24 &&& b34)
  let u24 := b24 ^^^ (not64 b34 &&& b44)
  let u34 := b34 ^^^ (not64 b44 &&& b04)
  let u44 := b44 ^^^ (not64 b04 &&& b14)
  -- iota
  ⟨u00 ^^^ rc, u10, u20, u30, u40,
   u01, u11, u21, u31, u41,
   u02, u12, u22, u32, u42,
   u03, u13, u23, u33, u43,
   u04, u14, u24, u34, u44⟩

/-- The full Keccak-f[1600] permutation (24 rounds). -/
def keccakP (s : KState) : KState :=
  keccakRC.foldl keccakRound s

/-- Byte `k` of a byte list (0 when out of range). -/
def byteAt (bs : List Nat) (k : Nat) : Nat := bs.getD k 0

/-- Assemble the 64-bit lane starting at byte offset `8*i` (little-endian). -/
def laneAt (bs : List Nat) (i : Nat) : Nat :=
  byteAt bs (8 * i) |||
  (byteAt bs (8 * i + 1) <<< 8) |||
  (byteAt bs (8 * i + 2) <<< 16) |||
  (byteAt bs (8 * i + 3) <<< 24) |||
  (byteAt bs (8 * i + 4) <<< 32) |||
  (byteAt bs (8 * i + 5) <<< 40) |||
  (byteAt bs (8 * i + 6) <<< 48) |||
  (byteAt bs (8 * i + 7) <<< 56)

/-- XOR a 136-byte rate block into the first 17 lanes of the state. -/
def xorBlock (s : KState) (bs : List Nat) : KState :=
  { s with
    a00 := s.a00 ^^^ laneAt bs 0
    a10 := s.a10 ^^^ laneAt bs 1
    a20 := s.a20 ^^^ laneAt bs 2
    a30 := s.a30 ^^^ laneAt bs 3
    a40 := s.a40 ^^^ laneAt bs 4
    a01 := s.a01 ^^^ laneAt bs 5
    a11 := s.a11 ^^^ laneAt bs 6
    a21 := s.a21 ^^^ laneAt bs 7
    a31 := s.a31 ^^^ laneAt bs 8
    a41 := s.a41 ^^^ laneAt bs 9
    a02 := s.a02 ^^^ laneAt bs 10
    a12 := s.a12 ^^^ laneAt bs 11
    a22 := s.a22 ^^^ laneAt bs 12
    a32 := s.a32 ^^^ laneAt bs 13
    a42 := s.a42 ^^^ laneAt bs 14
    a03 := s.a03 ^^^ laneAt bs 15
    a13 := s.a13 ^^^ laneAt bs 16 }

/-- Keccak multi-rate padding 0x01 .. 0x80 to a multiple of 136 bytes. -/
def pad101 (msg : List Nat) : List Nat :=
  let padlen := 136 - msg.length % 136
  if padlen = 1 then msg ++ [0x81]
  else msg ++ [0x01] ++ List.replicate (padlen - 2) 0 ++ [0x80]

/-- Absorb the (already padded) message block by block; the first argument
is fuel bounding the number of blocks (structural, so that it computes by
kernel reduction). -/
def absorbAux : Nat → KState → List Nat → KState
  | 0, s, _ => s
  | _ + 1, s, [] => s
  | n + 1, s, b :: rest =>
      absorbAux n (keccakP (xorBlock s (b :: rest.take 135))) (rest.drop 135)

/-- Absorb the (already padded) message block by block. -/
def absorbBlocks (s : KState) (bs : List Nat) : KState :=
  absorbAux (bs.length / 136 + 1) s bs

/-- The 8 little-endian bytes of a 64-bit lane. -/
def laneBytes (x : Nat) : List Nat :=
  [x &&& 255, (x >>> 8) &&& 255, (x >>> 16) &&& 255, (x >>> 24) &&& 255,
   (x >>> 32) &&& 255, (x >>> 40) &&& 255, (x >>> 48) &&& 255, (x >>> 56) &&& 255]

/-- Keccak-256 of a byte sequence: 32 output bytes (lanes 0..3). -/
def keccak256 (msg : List Nat) : List Nat :=
  let s := absorbBlocks kZero (pad101 msg)
  laneBytes s.a00 ++ laneBytes s.a10 ++ laneBytes s.a20 ++ laneBytes s.a30

/-- Lowercase hex character of a nibble. -/
def hexChar (n : Nat) : Char :=
  if n < 10 then Char.ofNat (48 + n) else Char.ofNat (87 + n)

/-- Two lowercase hex characters of a byte. -/
def byteHex (b : Nat) : List Char :=
  [hexChar (b / 16), hexChar (b % 16)]

/-- Lowercase hex characters of a byte sequence. -/
def bytesHex (bs : List Nat) : List Char :=
  (bs.map byteHex).flatten

/-- UTF-8 encoding of one character (what `Buffer.from(str)` does in Node). -/
def utf8Char (c : Char) : List Nat :=
  let n := c.toNat
  if n < 0x80 then [n]
  else if n < 0x800 then [0xC0 ||| (n >>> 6), 0x80 ||| (n &&& 0x3F)]
  else if n < 0x10000 then
    [0xE0 ||| (n >>> 12), 0x80 ||| ((n >>> 6) &&& 0x3F), 0x80 ||| (n &&& 0x3F)]
  else
    [0xF0 ||| (n >>> 18), 0x80 ||| ((n >>> 12) &&& 0x3F),
     0x80 ||| ((n >>> 6) &&& 0x3F), 0x80 ||| (n &&& 0x3F)]

/-- UTF-8 bytes of a string. -/
def strBytes (s : String) : List Nat :=
  (s.data.map utf8Char).flatten

/-- Model of `ethUtil.sha3` on a (non hex-prefixed) string: Keccak-256 of its UTF-8
bytes, as a 32-entry byte list. -/
def sha3 (s : String) : List Nat :=
  keccak256 (strBytes s)

/-- Model of `ethUtil.sha3(s).toString('hex')`: the 64 lowercase hex characters. -/
def sha3Hex (s : String) : List Char :=
  bytesHex (sha3 s)

end Poker

-- Known-answer tests for the Keccak-256 embedding.
example : String.mk (Poker.sha3Hex "") =
    "c5d2460186f7233c927e7db2dcc703c0e500b653ca82273b7bfad8045d85a470" := by
  decide

example : String.mk (Poker.sha3Hex "abc") =
    "4e03657aea45a94fc7d47ba826c8d667c0d1e6e33a64a036ec44f58fa12d6c45" := by
  decide

namespace Poker

/-! ## Character helpers and validators

The regular expressions at the top of `src/index.js` are embedded as direct
character-list tests.  The JavaScript `toLowerCase` / `toUpperCase` calls are
modelled on the ASCII range (every string reaching them in the embedded code
paths has passed a hex-character guard, so the ASCII mapping is exact there).
-/

/-- ASCII `toLowerCase` on one character. -/
def jsToLowerChar (c : Char) : Char :=
  let n := c.toNat
  if 65 ≤ n ∧ n ≤ 90 then Char.ofNat (n + 32) else c

/-- ASCII `toUpperCase` on one character. -/
def jsToUpperChar (c : Char) : Char :=
  let n := c.toNat
  if 97 ≤ n ∧ n ≤ 122 then Char.ofNat (n - 32) else c

/-- ASCII `toLowerCase` on a string (as a character list). -/
def jsToLower (s : List Char) : List Char := s.map jsToLowerChar

/-- Case-insensitive hex digit: `[0-9a-fA-F]`. -/
def isHexCI (c : Char) : Bool :=
  let n := c.toNat
  (48 ≤ n && n ≤ 57) || (97 ≤ n && n ≤ 102) || (65 ≤ n && n ≤ 70)

/-- Lowercase hex digit: `[0-9a-f]`. -/
def isHexLower (c : Char) : Bool :=
  let n := c.toNat
  (48 ≤ n && n ≤ 57) || (97 ≤ n && n ≤ 102)

/-- Uppercase hex digit: `[0-9A-F]`. -/
def isHexUpper (c : Char) : Bool :=
  let n := c.toNat
  (48 ≤ n && n ≤ 57) || (65 ≤ n && n ≤ 70)

/-- Test of `refRegex = /^[0-9a-f]{8}$/i`: exactly eight case-insensitive hex digits. -/
def refRegexTest (s : List Char) : Bool :=
  s.length = 8 && s.all isHexCI

/-- Test of `uuidRegex` = `/^[0-9a-f]{8}-[0-9a-f]{4}-[1-5][0-9a-f]{3}-[89ab][0-9a-f]{3}-[0-9a-f]{12}$/i`,
encoded positionally: length 36, dashes at 8/13/18/23, `[1-5]` at 14,
`[89ab]` (case-insensitive) at 19, hex elsewhere. -/
def uuidRegexTest (s : List Char) : Bool :=
  s.length = 36 &&
  (List.range 36).all fun i =>
    let c := s.getD i ' '
    let n := c.toNat
    if i = 8 ∨ i = 13 ∨ i = 18 ∨ i = 23 then c = '-'
    else if i = 14 then 49 ≤ n && n ≤ 53
    else if i = 19 then n = 56 || n = 57 || n = 97 || n = 98 || n = 65 || n = 66
    else isHexCI c

/-- Test of `/^(0x)?[0-9a-f]{40}$/i`: optional `0x` then forty case-insensitive hex digits. -/
def addrShapeCI (s : List Char) : Bool :=
  match s with
  | '0' :: 'x' :: rest => rest.length = 40 && rest.all isHexCI
  | other => other.length = 40 && other.all isHexCI

/-- Test of `/^(0x)?[0-9a-f]{40}$/`: optional `0x` then forty lowercase hex digits. -/
def addrAllLower (s : List Char) : Bool :=
  match s with
  | '0' :: 'x' :: rest => rest.length = 40 && rest.all isHexLower
  | other => other.length = 40 && other.all isHexLower

/-- Test of `/^(0x)?[0-9A-F]{40}$/`: optional `0x` then forty uppercase hex digits. -/
def addrAllUpper (s : List Char) : Bool :=
  match s with
  | '0' :: 'x' :: rest => rest.length = 40 && rest.all isHexUpper
  | other => other.length = 40 && other.all isHexUpper

/-! ### The email regular expression

`emailRegex` is `^(local)@(domain)$` with
`local = (atom(\.atom)*) | ('.+')` where `atom = [^<>()[\]\\.,;:\s@']+`,
and `domain = \[d{1,3}\.d{1,3}\.d{1,3}\.d{1,3}\] | ([a-zA-Z\-0-9]+\.)+[a-zA-Z]{2,}`.
It is backreference-free, so backtracking semantics coincide with:
some split of the string at an `@` makes local and domain match. -/

/-- JavaScript `\s` (whitespace class), for the characters it can meet here. -/
def jsWhitespace (c : Char) : Bool :=
  let n := c.toNat
  n = 9 || n = 10 || n = 11 || n = 12 || n = 13 || n = 32 || n = 160 ||
  n = 0x1680 || (0x2000 ≤ n && n ≤ 0x200A) || n = 0x2028 || n = 0x2029 ||
  n = 0x202F || n = 0x205F || n = 0x3000 || n = 0xFEFF

/-- A character allowed in an unquoted local-part atom:
`[^<>()[\]\\.,;:\s@']`. -/
def atomChar (c : Char) : Bool :=
  !(c = '<' || c = '>' || c = '(' || c = ')' || c = '[' || c = ']' ||
    c = '\\' || c = '.' || c = ',' || c = ';' || c = ':' || jsWhitespace c ||
    c = '@' || c = '\x27')

/-- Class of `.` in a JavaScript regex: any character except a line terminator. -/
def dotChar (c : Char) : Bool :=
  !(c.toNat = 10 || c.toNat = 13 || c.toNat = 0x2028 || c.toNat = 0x2029)

/-- Split a list at every occurrence of `sep` (no merging of empties). -/
def splitOnChar (sep : Char) (s : List Char) : List (List Char) :=
  match s with
  | [] => [[]]
  | c :: rest =>
      let r := splitOnChar sep rest
      if c = sep then [] :: r
      else match r with
           | [] => [[c]]
           | g :: gs => (c :: g) :: gs

/-- Local part, unquoted alternative: dot-separated nonempty atoms. -/
def localUnquoted (s : List Char) : Bool :=
  (splitOnChar '.' s).all fun atom => atom.length ≥ 1 && atom.all atomChar

/-- Local part, quoted alternative `'.+'`. -/
def localQuoted (s : List Char) : Bool :=
  match s with
  | '\x27' :: rest =>
      rest.length ≥ 2 && rest.getLast? = some '\x27' &&
      (rest.take (rest.length - 1)).all dotChar
  | _ => false

/-- The regex local part: unquoted atoms or quoted. -/
def localOk (s : List Char) : Bool :=
  localUnquoted s || localQuoted s

/-- One to three decimal digits. -/
def digits13 (s : List Char) : Bool :=
  1 ≤ s.length && s.length ≤ 3 && s.all fun c => 48 ≤ c.toNat && c.toNat ≤ 57

/-- Bracketed IPv4-shaped domain `\[d{1,3}\.d{1,3}\.d{1,3}\.d{1,3}\]`. -/
def domainBracket (s : List Char) : Bool :=
  match s with
  | '[' :: rest =>
      match rest.getLast? with
      | some ']' =>
          let inner := rest.take (rest.length - 1)
          match splitOnChar '.' inner with
          | [a, b, c, d] => digits13 a && digits13 b && digits13 c && digits13 d
          | _ => false
      | _ => false
  | _ => false

/-- A domain label `[a-zA-Z\-0-9]+`. -/
def labelChar (c : Char) : Bool :=
  let n := c.toNat
  (97 ≤ n && n ≤ 122) || (65 ≤ n && n ≤ 90) || c = '-' || (48 ≤ n && n ≤ 57)

/-- Dotted domain `([a-zA-Z\-0-9]+\.)+[a-zA-Z]{2,}`: at least one label then
a top-level part of two or more letters. -/
def domainDotted (s : List Char) : Bool :=
  match (splitOnChar '.' s).reverse with
  | tld :: labels =>
      labels.length ≥ 1 &&
      tld.length ≥ 2 &&
      tld.all (fun c => (97 ≤ c.toNat && c.toNat ≤ 122) || (65 ≤ c.toNat && c.toNat ≤ 90)) &&
      labels.all fun l => l.length ≥ 1 && l.all labelChar
  | [] => false

/-- The regex domain part. -/
def domainOk (s : List Char) : Bool :=
  domainBracket s || domainDotted s

/-- Test of `emailRegex.test`: some split `s = local ++ "@" ++ domain` with both
sides matching (equivalent to the anchored backtracking match). -/
def emailRegexTest (s : List Char) : Bool :=
  (List.range s.length).any fun i =>
    s.getD i ' ' = '@' && localOk (s.take i) && domainOk (s.drop (i + 1))

end Poker

-- Sanity checks of the validators against JavaScript behaviour.
example : Poker.emailRegexTest "a@b.co".data = true := by decide
example : Poker.emailRegexTest "a.b-c@ex-1.org".data = true := by decide
example : Poker.emailRegexTest "a@b@c.co".data = false := by decide
example : Poker.emailRegexTest "a@[1.2.3.4]".data = true := by decide
example : Poker.emailRegexTest "a@b".data = false := by decide
example : Poker.emailRegexTest "@b.co".data = false := by decide
example : Poker.emailRegexTest "a..b@x.co".data = false := by decide
example : Poker.uuidRegexTest "bd3afb0d-7a91-4ab4-9d47-cc4b58ed5d69".data = true := by decide
example : Poker.uuidRegexTest "BD3AFB0D-7A91-4AB4-9D47-CC4B58ED5D69".data = true := by decide
example : Poker.uuidRegexTest "bd3afb0d-7a91-6ab4-9d47-cc4b58ed5d69".data = false := by decide
example : Poker.uuidRegexTest "bd3afb0d-7a91-4ab4-7d47-cc4b58ed5d69".data = false := by decide
example : Poker.refRegexTest "00f0AB12".data = true := by decide
example : Poker.refRegexTest "00g00000".data = false := by decide
example : Poker.refRegexTest "0000000".data = false := by decide

namespace Poker

/-! ## `isChecksumAddress` / `isAddress`

`ethUtil.sha3` returns a `Buffer`, so in the source `addressHash[i]` is the
`i`-th *byte* of the 32-byte digest (a number, not a hex character), and for
`i ≥ 32` it is `undefined`.  `parseInt(byte, 16)` first converts the number
to its decimal string and then reads that string as hex;
`parseInt(undefined, 16)` is `NaN`, which makes both comparisons in the loop
false, so positions 32..39 are never constrained. -/

/-- Value of `parseInt(String(n), 16)`: the decimal digit string of `n` reread as a
hex numeral (only used on buffer bytes, all `< 256`). -/
def decAsHex (n : Nat) : Nat :=
  if n < 10 then n
  else if n < 100 then 16 * (n / 10) + n % 10
  else 256 * (n / 100) + 16 * (n / 10 % 10) + n % 10

/-- Model of `addr.replace('0x', '')`: remove the first occurrence of `0x`. -/
def stripFirst0x : List Char → List Char
  | [] => []
  | '0' :: 'x' :: rest => rest
  | c :: rest => c :: stripFirst0x rest

/-- Function `isChecksumAddress` from the source: strip `0x`, hash the lowercased
address, and for each of the 40 positions fail when the byte value
(`parseInt` quirk above) demands an upper/lowercase character that is not
there.  `address[i]` beyond the digest length is the `undefined`/`NaN` case
where neither branch fires. -/
def isChecksumAddress (addr : List Char) : Bool :=
  let address := stripFirst0x addr
  let addressHash := sha3 (String.mk (jsToLower address))
  (List.range 40).all fun i =>
    let c := address.getD i ' '
    match addressHash.get? i with
    | some b =>
        !((decAsHex b > 7 && jsToUpperChar c ≠ c) ||
          (decAsHex b ≤ 7 && jsToLowerChar c ≠ c))
    | none => true

/-- Function `isAddress` from the source: shape regex, then the all-lowercase /
all-uppercase shortcuts, else the checksum test. -/
def isAddress (address : List Char) : Bool :=
  if !addrShapeCI address then false
  else if addrAllLower address || addrAllUpper address then true
  else isChecksumAddress address

/-! ### The checksum rule as the claim states it

The claim says the checksum is driven by the corresponding *hex digit* of
the digest (a 0–15 value), for each of the 40 positions. -/

/-- Value of one lowercase hex character of the digest. -/
def hexVal (c : Char) : Nat :=
  let n := c.toNat
  if n ≤ 57 then n - 48 else n - 87

/-- The claim's checksum rule: position `i` looks at hex digit `i` of the
digest of the lowercased address; value > 7 forces uppercase, value ≤ 7
forces lowercase. -/
def checksumRuleSpec (addr : List Char) : Bool :=
  let address := stripFirst0x addr
  let digestHex := sha3Hex (String.mk (jsToLower address))
  (List.range 40).all fun i =>
    let c := address.getD i ' '
    if hexVal (digestHex.getD i '0') > 7 then jsToUpperChar c = c
    else jsToLowerChar c = c

/-- Predicate `isAddress` as the claim describes it: 40 hex digits with optional `0x`,
and all-lowercase, all-uppercase, or mixed case passing `checksumRuleSpec`. -/
def isAddressSpec (address : List Char) : Bool :=
  addrShapeCI address &&
  (addrAllLower address || addrAllUpper address || checksumRuleSpec address)

/-- The byte-driven rule the code actually implements: positions 0..31 are
forced by the corresponding digest *byte* (> 7 uppercase, ≤ 7 lowercase) and
positions 32..39 are unconstrained. -/
def checksumRuleByte (addr : List Char) : Bool :=
  let address := stripFirst0x addr
  let addressHash := sha3 (String.mk (jsToLower address))
  (List.range 32).all fun i =>
    let c := address.getD i ' '
    if addressHash.getD i 0 > 7 then jsToUpperChar c = c
    else jsToLowerChar c = c

/-- Predicate `isAddress` as amended: same shape and case shortcuts, with the
byte-driven 32-position checksum rule. -/
def isAddressAmended (address : List Char) : Bool :=
  addrShapeCI address &&
  (addrAllLower address || addrAllUpper address || checksumRuleByte address)

end Poker

-- Checksum sanity checks: a canonical EIP-55 address is accepted by the
-- claim-style rule but its byte-driven variant differs in general.
example :
    Poker.checksumRuleSpec "0x5aAeb6053F3E94C9b9A09f33669435E7Ef1BeAed".data = true := by
  decide

namespace Poker

/-- Every entry of `laneBytes` is a byte. -/
theorem laneBytes_le (x : Nat) : ∀ b ∈ laneBytes x, b ≤ 255 := by
  intro b hb
  simp only [laneBytes, List.mem_cons, List.not_mem_nil, or_false] at hb
  rcases hb with h | h | h | h | h | h | h | h <;> subst h <;> exact Nat.and_le_right

/-- The digest has 32 bytes. -/
theorem sha3_length (s : String) : (sha3 s).length = 32 := by
  simp [sha3, keccak256, laneBytes]

/-- Every digest entry is a byte. -/
theorem sha3_mem_le (s : String) {b : Nat} (hb : b ∈ sha3 s) : b ≤ 255 := by
  unfold sha3 keccak256 at hb
  simp only [List.mem_append] at hb
  rcases hb with ((h | h) | h) | h <;> exact laneBytes_le _ _ h

/-- On bytes, the `parseInt` decimal-reread-as-hex quirk preserves the
`> 7` test. -/
theorem decAsHex_gt7_iff : ∀ b < 256, (decAsHex b > 7 ↔ b > 7) := by decide

/-- Value of `List.getD` at a position known to hold `b`. -/
theorem getD_of_get? {l : List Nat} {i : Nat} {b : Nat} (h : l.get? i = some b) :
    l.getD i 0 = b := by
  have : l.getD i 0 = (l.get? i).getD 0 := rfl
  rw [this, h]
  rfl

/-- The checksum loop of the source equals the byte-driven 32-position rule:
positions 32..39 read `undefined` from the digest buffer and never fire, and
on 0..31 the `parseInt` quirk is the identity as far as `> 7` goes. -/
theorem isChecksumAddress_eq_byte (addr : List Char) :
    isChecksumAddress addr = checksumRuleByte addr := by
  unfold isChecksumAddress checksumRuleByte
  set address := stripFirst0x addr with haddress
  set hash := sha3 (String.mk (jsToLower address)) with hhash
  have hlen : hash.length = 32 := sha3_length _
  have hbody : ∀ i < 32,
      (match hash.get? i with
       | some b =>
           !((decAsHex b > 7 && jsToUpperChar (address.getD i ' ') ≠ address.getD i ' ') ||
             (decAsHex b ≤ 7 && jsToLowerChar (address.getD i ' ') ≠ address.getD i ' '))
       | none => true) =
      (if hash.getD i 0 > 7 then decide (jsToUpperChar (address.getD i ' ') = address.getD i ' ')
       else decide (jsToLowerChar (address.getD i ' ') = address.getD i ' ')) := by
    intro i hi
    cases hg : hash.get? i with
    | none =>
        exfalso
        have := List.get?_eq_none.mp hg
        omega
    | some b =>
        have hb255 : b ≤ 255 := sha3_mem_le _ (hhash ▸ List.get?_mem hg)
        have hiff : decAsHex b > 7 ↔ b > 7 := decAsHex_gt7_iff b (by omega)
        rw [getD_of_get? hg]
        by_cases h7 : b > 7
        · have h1 : decAsHex b > 7 := hiff.mpr h7
          simp [h1, h7, Nat.not_le.mpr h1]
        · have h1 : ¬ decAsHex b > 7 := fun hc => h7 (hiff.mp hc)
          simp [h1, h7, Nat.not_lt.mp h1]
  rw [Bool.eq_iff_iff, List.all_eq_true, List.all_eq_true]
  constructor
  · intro h i hi
    have hi32 : i < 32 := List.mem_range.mp hi
    have := h i (List.mem_range.mpr (by omega))
    rw [hbody i hi32] at this
    simpa using this
  · intro h i hi
    have hi40 : i < 40 := List.mem_range.mp hi
    by_cases hi32 : i < 32
    · rw [hbody i hi32]
      simpa using h i (List.mem_range.mpr hi32)
    · have hnone : (sha3 (String.mk (jsToLower address)))[i]? = none := by
        refine List.getElem?_eq_none ?_
        rw [← hhash]
        omega
      simp [hnone]

/-- Address accepted by the source but rejected by the claim's hex-digit
rule: positions 0..31 are digits (caseless), and position 32 carries an
uppercase letter where hex digit 32 of the digest (value 3) demands
lowercase — the source never constrains positions 32..39. -/
def badChecksumAddr : List Char :=
  "11111111111111111111111111111111Aaaaaaaa".data

end Poker

/-- C6: counterexample.  `isAddress` accepts a mixed-case address that the
claim's checksum rule (hex digit of the digest at each of the 40 positions)
rejects, so "returns true exactly when …" fails. -/
theorem C6_counterexample :
    Poker.isAddress Poker.badChecksumAddr = true ∧
    Poker.isAddressSpec Poker.badChecksumAddr = false := by
  constructor <;> decide

/-- C6 (amended): `isAddress` accepts exactly the strings of 40 hex digits
with optional `0x` prefix that are all-lowercase, all-uppercase, or whose
mixed case satisfies the byte-driven rule: for each position below 32 the
corresponding digest *byte* (of the lowercased address) demands uppercase
when above 7 and lowercase otherwise, positions 32..39 unconstrained. -/
theorem C6_isAddress_iff_amended (s : List Char) :
    Poker.isAddress s = Poker.isAddressAmended s := by
  unfold Poker.isAddress Poker.isAddressAmended
  cases h1 : Poker.addrShapeCI s <;> cases h2 : Poker.addrAllLower s <;>
    cases h3 : Poker.addrAllUpper s <;>
    simp [h1, h2, h3, Poker.isChecksumAddress_eq_byte]

namespace Poker

/-! ## Receipts and the Session Guard

`Receipt.parse` / `.sign` come from the external `poker-helper` capability:
a parsed receipt is modelled as its payload record and the parse outcome is
passed in explicitly (`Except String Receipt`).  Clock values are exact
rationals: `Date.now()` is the millisecond count and the source divides it
by 1000. -/

/-- Receipt type tags (the `Type` enum of poker-helper). -/
inductive RType where
  | createConf
  | resetConf
  | unlock
  | forward
  | other (tag : Nat)
deriving DecidableEq

/-- A parsed receipt: signer address, type tag, creation time (seconds),
target account id. -/
structure Receipt where
  signer : String
  type : RType
  created : ℚ
  accountId : String
deriving DecidableEq

/-- The typed errors of `./errors`, with the payload each raise site uses. -/
inductive Err where
  | badRequest (msg : String)
  | unauthorizedParse (msg : String)
  | unauthorizedSigner (signer : String)
  | unauthorizedExpired (secs : ℚ)
  | unauthorizedFresh
  | forbiddenType (t : RType)
  | conflict (msg : String)
  | enhanceYourCalm (msg : String)
  | teapot (msg : String)
  | collaborator (msg : String)
deriving DecidableEq

/-- Unauthorized-class (HTTP 401) errors. -/
def Err.isUnauthorized : Err → Bool
  | .unauthorizedParse _ => true
  | .unauthorizedSigner _ => true
  | .unauthorizedExpired _ => true
  | .unauthorizedFresh => true
  | _ => false

/-- Forbidden-class (HTTP 403) errors. -/
def Err.isForbidden : Err → Bool
  | .forbiddenType _ => true
  | _ => false

/-- Function `checkSession(sessionReceipt, sessionAddr, type, timeoutHours)` from the
source: parse failure and signer mismatch are Unauthorized; with a nonzero
(truthy) `timeoutHours`, `timeout = Date.now()/1000 - 3600*timeoutHours`,
a positive timeout rejects `created < timeout` as expired and a negative
one rejects `created >= timeout` as too fresh; finally a type mismatch is
Forbidden. -/
def checkSession (parseResult : Except String Receipt) (sessionAddr : String)
    (t : RType) (timeoutHours : ℚ) (nowMs : ℚ) : Except Err Receipt :=
  match parseResult with
  | .error m => .error (.unauthorizedParse m)
  | .ok session =>
    if session.signer ≠ sessionAddr then .error (.unauthorizedSigner session.signer)
    else
      let timeoutCheck : Except Err Unit :=
        if timeoutHours ≠ 0 then
          let timeout := nowMs / 1000 - 60 * 60 * timeoutHours
          if timeoutHours > 0 ∧ session.created < timeout then
            .error (.unauthorizedExpired (timeout - session.created))
          else if timeoutHours < 0 ∧ session.created ≥ timeout then
            .error .unauthorizedFresh
          else .ok ()
        else .ok ()
      match timeoutCheck with
      | .error e => .error e
      | .ok _ =>
          if session.type ≠ t then .error (.forbiddenType session.type)
          else .ok session

/-- A receipt created exactly at the cutoff: with `nowMs = 7200000` and
`timeoutHours = 1`, the cutoff is `7200000/1000 - 3600 = 3600`. -/
def c2Receipt : Receipt := ⟨"0xsigner", RType.createConf, 3600, "acc1"⟩

/-- A receipt with the wrong type that is also far past the expiry cutoff
(`created = 0`, cutoff `36000000/1000 - 7200 = 28800`). -/
def c3Receipt : Receipt := ⟨"0xsigner", RType.resetConf, 0, "acc1"⟩

end Poker

/-- C2: counterexample.  A receipt whose creation time equals the cutoff
exactly is *accepted* by `checkSession` (the source tests `created <
timeout` strictly), not rejected as expired as the claim states. -/
theorem C2_counterexample :
    Poker.c2Receipt.created = 7200000 / 1000 - 60 * 60 * 1 ∧
    Poker.checkSession (.ok Poker.c2Receipt) "0xsigner" Poker.RType.createConf 1 7200000 =
      .ok Poker.c2Receipt := by
  constructor
  · show (3600 : ℚ) = 7200000 / 1000 - 60 * 60 * 1
    norm_num
  · have hnlt : ¬ ((3600 : ℚ) < 7200000 / 1000 - 60 * 60 * 1) := by norm_num
    simp [Poker.checkSession, Poker.c2Receipt, hnlt]
    norm_num

/-- C2 (amended): for a parsed receipt with the expected signer and a
positive `timeoutHours`, receipts created strictly before the cutoff are
rejected as expired with Unauthorized, and receipts created at or after the
cutoff pass the freshness check (the boundary `created == cutoff` is
accepted, then only the type check decides). -/
theorem C2_expiry_boundary (session : Poker.Receipt) (sessionAddr : String)
    (t : Poker.RType) (timeoutHours nowMs : ℚ)
    (hsig : session.signer = sessionAddr) (hpos : 0 < timeoutHours) :
    (session.created < nowMs / 1000 - 60 * 60 * timeoutHours →
      Poker.checkSession (.ok session) sessionAddr t timeoutHours nowMs =
        .error (.unauthorizedExpired
          (nowMs / 1000 - 60 * 60 * timeoutHours - session.created))) ∧
    (nowMs / 1000 - 60 * 60 * timeoutHours ≤ session.created →
      Poker.checkSession (.ok session) sessionAddr t timeoutHours nowMs =
        (if session.type = t then .ok session
         else .error (.forbiddenType session.type))) := by
  unfold Poker.checkSession
  have hne : timeoutHours ≠ 0 := ne_of_gt hpos
  constructor
  · intro hlt
    simp [hsig, hne, hpos, hlt]
  · intro hge
    have hnlt : ¬ session.created < nowMs / 1000 - 60 * 60 * timeoutHours :=
      not_lt.mpr hge
    have hnneg : ¬ timeoutHours < 0 := not_lt.mpr (le_of_lt hpos)
    by_cases hty : session.type = t <;> simp [hsig, hne, hpos, hnlt, hnneg, hty]

/-- C2 witness: a receipt 600 seconds past the cutoff is rejected as
expired, via `C2_expiry_boundary` at a concrete input. -/
theorem C2_expiry_boundary_witness :
    Poker.checkSession (.ok ⟨"a", .createConf, 3000, "x"⟩) "a"
      Poker.RType.createConf 1 7200000 =
      .error (.unauthorizedExpired 600) := by
  have h := (C2_expiry_boundary ⟨"a", .createConf, 3000, "x"⟩ "a"
    Poker.RType.createConf 1 7200000 rfl (by norm_num)).1 (by norm_num)
  have he : (7200000 : ℚ) / 1000 - 60 * 60 * 1 - 3000 = 600 := by norm_num
  rw [he] at h
  exact h

/-- C3: counterexample.  A receipt with the wrong type that is also expired
fails with an Unauthorized-class expiry error, not a Forbidden-class error:
the freshness check runs before the type check. -/
theorem C3_counterexample :
    Poker.c3Receipt.type ≠ Poker.RType.createConf ∧
    Poker.checkSession (.ok Poker.c3Receipt) "0xsigner" Poker.RType.createConf 2 36000000 =
      .error (.unauthorizedExpired 28800) ∧
    Poker.Err.isForbidden (.unauthorizedExpired 28800) = false := by
  refine ⟨by decide, ?_, by decide⟩
  have h1 : ((2 : ℚ) > 0 ∧ (0 : ℚ) < 36000000 / 1000 - 60 * 60 * 2) := by norm_num
  simp [Poker.checkSession, Poker.c3Receipt, h1]
  norm_num

/-- C3 (amended): a parsed receipt with the expected signer but the wrong
type always fails; the error is Forbidden-class exactly when the freshness
window check passes, and an Unauthorized-class freshness error otherwise. -/
theorem C3_type_mismatch (session : Poker.Receipt) (sessionAddr : String)
    (t : Poker.RType) (timeoutHours nowMs : ℚ)
    (hsig : session.signer = sessionAddr) (hne : session.type ≠ t) :
    (∃ e, Poker.checkSession (.ok session) sessionAddr t timeoutHours nowMs =
      .error e) ∧
    ((¬ (timeoutHours > 0 ∧ session.created < nowMs / 1000 - 60 * 60 * timeoutHours)) →
     (¬ (timeoutHours < 0 ∧ nowMs / 1000 - 60 * 60 * timeoutHours ≤ session.created)) →
      Poker.checkSession (.ok session) sessionAddr t timeoutHours nowMs =
        .error (.forbiddenType session.type)) := by
  unfold Poker.checkSession
  constructor
  · by_cases h0 : timeoutHours = 0
    · exact ⟨Poker.Err.forbiddenType session.type, by simp [hsig, h0, hne]⟩
    · by_cases hexp : timeoutHours > 0 ∧ session.created < nowMs / 1000 - 60 * 60 * timeoutHours
      · exact ⟨Poker.Err.unauthorizedExpired
          (nowMs / 1000 - 60 * 60 * timeoutHours - session.created),
          by simp [hsig, h0, hexp]⟩
      · by_cases hfr : timeoutHours < 0 ∧ nowMs / 1000 - 60 * 60 * timeoutHours ≤ session.created
        · exact ⟨Poker.Err.unauthorizedFresh, by simp [hsig, h0, hexp, hfr]⟩
        · exact ⟨Poker.Err.forbiddenType session.type, by
            have hfr2 : ¬ (timeoutHours < 0 ∧
                nowMs / 1000 ≤ session.created + 60 * 60 * timeoutHours) :=
              fun hc => hfr ⟨hc.1, by linarith [hc.2]⟩
            simp [hsig, h0, hexp, hfr2, hne]⟩
  · intro hexp hfr
    by_cases h0 : timeoutHours = 0
    · simp [hsig, h0, hne]
    · have hfr2 : ¬ (timeoutHours < 0 ∧
          nowMs / 1000 ≤ session.created + 60 * 60 * timeoutHours) :=
        fun hc => hfr ⟨hc.1, by linarith [hc.2]⟩
      simp [hsig, h0, hexp, hfr2, hne]

/-- C3 witness: concrete wrong-type receipt inside the freshness window is
rejected Forbidden, via `C3_type_mismatch`. -/
theorem C3_type_mismatch_witness :
    Poker.checkSession (.ok ⟨"a", .resetConf, 7000, "x"⟩) "a"
      Poker.RType.createConf 1 7200000 =
      .error (.forbiddenType Poker.RType.resetConf) := by
  have h := (C3_type_mismatch ⟨"a", .resetConf, 7000, "x"⟩ "a"
    Poker.RType.createConf 1 7200000 rfl (by decide)).2
  have := h (by norm_num) (by norm_num)
  simpa using this

namespace Poker

/-! ## Storage model and the Referral Allocator / Account Orchestrator

The storage collaborator is modelled as explicit state: a map from referral
code to entry, the account rows, and the proxy pool.  A rejected storage or
captcha promise is `Err.collaborator`.  `db.getProxy()` reserves (returns)
the first pooled address; `db.deleteProxy` removes it. -/

/-- The JS `referral.account` field may hold a string or an array of
strings (the source guards with `Array.isArray`). -/
inductive RefAccount where
  | str (s : String)
  | arr (l : List String)
deriving DecidableEq

/-- A referral-code row: bound account (absent on the sentinel
short-circuit object `{ allowance: 1 }`) and integer allowance. -/
structure RefEntry where
  account : Option RefAccount
  allowance : Int
deriving DecidableEq

/-- A stored wallet: the raw JSON string and the address parsed from it. -/
structure StoredWallet where
  raw : String
  address : String
deriving DecidableEq

/-- An account row as the Orchestrator reads and writes it. -/
structure AccountRow where
  id : String
  email : Option String
  pendingEmail : String
  refAccount : String
  proxyAddr : String
  wallet : Option StoredWallet
deriving DecidableEq

/-- The persistent state behind the storage collaborator. -/
structure DB where
  refs : String → Option RefEntry
  accounts : List AccountRow
  proxies : List String

/-- Read `db.getRef(code)`: resolves with the entry, rejects when absent. -/
def dbGetRef (db : DB) (code : String) : Except Err RefEntry :=
  match db.refs code with
  | some r => .ok r
  | none => .error (.collaborator "ref not found")

/-- JavaScript string coercion of the `account` field as `uuidRegex.test`
sees it: `undefined`, the string itself, or the comma-joined array. -/
def refAccountString : Option RefAccount → String
  | none => "undefined"
  | some (.str s) => s
  | some (.arr l) => String.intercalate "," l

/-- Value of `Array.isArray(referral.account) ? referral.account[0] :
referral.account`; an empty array yields `undefined` (unreachable behind
the uuid guard). -/
def refAccountFirst : RefAccount → String
  | .str s => s
  | .arr [] => "undefined"
  | .arr (a :: _) => a

/-- Result of the `getRef` service call: the optional default referral
(the global code's bound account, when uuid-shaped). -/
structure GetRefResult where
  defaultRef : Option RefAccount
deriving DecidableEq

/-- Function `getRef(refCode)` from the source: shape check (BadRequest), sentinel
short-circuit to `{ allowance: 1 }`, two reads, global-allowance gate
(EnhanceYourCalm) before the per-code gate (Teapot), then the uuid test on
the global code's account decides the default referral.  When both reads
fail the model reports the named-code rejection (the source order is
whichever promise rejects first; both are immediate here). -/
def getRef (db : DB) (refCode : String) : Except Err GetRefResult :=
  if ¬ refRegexTest refCode.data then .error (.badRequest "passed refCode not valid")
  else
    let refProm : Except Err RefEntry :=
      if "00000000" = refCode then .ok ⟨none, 1⟩
      else dbGetRef db refCode
    match refProm, dbGetRef db "00000000" with
    | .error e, _ => .error e
    | _, .error e => .error e
    | .ok referral, .ok glob =>
        if glob.allowance < 1 then .error (.enhanceYourCalm "global limit reached")
        else if referral.allowance < 1 then .error (.teapot "account invite limit reached")
        else if uuidRegexTest (refAccountString glob.account).data then
          .ok ⟨glob.account⟩
        else .ok ⟨none⟩

/-- Outcome token of `checkProxyPoolSize`. -/
inductive PoolOutcome where
  | skipped
  | enough
  | alerted
deriving DecidableEq

/-- Function `checkProxyPoolSize` from the source: skipped unless both the alert
collaborator and a nonzero threshold are configured; then the count read,
the threshold comparison, and possibly the alert send.  `countRes` /
`alertRes` are the collaborator outcomes. -/
def checkProxyPoolSize (slackAlertPresent : Bool) (minProxiesAlertThreshold : Nat)
    (countRes : Except String Nat) (alertRes : Except String Unit) :
    Except String PoolOutcome :=
  if ¬ slackAlertPresent ∨ minProxiesAlertThreshold = 0 then .ok .skipped
  else
    match countRes with
    | .error e => .error e
    | .ok proxiesCount =>
        if proxiesCount ≥ minProxiesAlertThreshold then .ok .enough
        else
          match alertRes with
          | .error e => .error e
          | .ok _ => .ok .alerted

/-- The confirmation-email send request `email.sendConfirm(email, receipt,
origin)` issued on success (the receipt is the signed create-confirmation
for the new account id). -/
structure SentConfirm where
  email : String
  receiptAccountId : String
  origin : String
deriving DecidableEq

/-- Successful `addAccount` result: the updated storage state, the caught
outcome of the pool-size check, and the email send request. -/
structure AddOutcome where
  db : DB
  poolCheck : Except String PoolOutcome
  sent : SentConfirm

/-- Function `addAccount` from the source: shape checks (BadRequest), the referral
read joined with the captcha check, the proxy reservation, the allowance
gate (Teapot), the uuid test on the referral's account (BadRequest), the
conflict check, the atomic persist (new row, proxy deletion, allowance
decrement), the caught pool-size check, and the confirmation email. -/
def addAccount (db : DB)
    (accountId email recapResponse origin sourceIp refCode : String)
    (recaptchaRes : Except String Unit)
    (slackAlertPresent : Bool) (minProxiesAlertThreshold : Nat)
    (poolCountRes : Except String Nat) (poolAlertRes : Except String Unit) :
    Except Err AddOutcome :=
  if ¬ uuidRegexTest accountId.data then .error (.badRequest "accountId not uuid v4")
  else if ¬ emailRegexTest email.data then .error (.badRequest "email has invalid format")
  else if ¬ refRegexTest refCode.data then .error (.badRequest "refCode has invalid format")
  else
    match dbGetRef db refCode, recaptchaRes with
    | .error e, _ => .error e
    | _, .error m => .error (.collaborator m)
    | .ok referral, .ok _ =>
      match db.proxies with
      | [] => .error (.collaborator "no proxy available")
      | proxyAddr :: _ =>
        if referral.allowance < 1 then .error (.teapot "referral invite limit reached")
        else if ¬ uuidRegexTest (refAccountString referral.account).data then
          .error (.badRequest "refCode can not be used for signup")
        else if db.accounts.any
            (fun a => a.id = accountId ∨ a.pendingEmail = email ∨ a.email = some email) then
          .error (.conflict "account or email already exists")
        else
          let refAcc := match referral.account with
            | some acc => refAccountFirst acc
            | none => "undefined"
          let newRow : AccountRow :=
            ⟨accountId, none, String.mk (jsToLower email.data), refAcc, proxyAddr, none⟩
          let db2 : DB :=
            ⟨fun c => if c = refCode then some ⟨referral.account, referral.allowance - 1⟩
                      else db.refs c,
             db.accounts ++ [newRow],
             db.proxies.erase proxyAddr⟩
          .ok ⟨db2,
               checkProxyPoolSize slackAlertPresent minProxiesAlertThreshold
                 poolCountRes poolAlertRes,
               ⟨email, accountId, origin⟩⟩

end Poker

namespace Poker

/-- Success characterization of `addAccount`: when every validation and
collaborator step passes, the call returns the updated state (new row,
reserved proxy deleted, allowance decremented) and the email request. -/
theorem addAccount_success (db : DB)
    (accountId email recap origin ip refCode proxyAddr : String) (rest : List String)
    (sa : Bool) (th : Nat) (cr : Except String Nat) (ar : Except String Unit)
    (r : RefEntry)
    (hid : uuidRegexTest accountId.data = true)
    (hemail : emailRegexTest email.data = true)
    (href : refRegexTest refCode.data = true)
    (hr : db.refs refCode = some r)
    (halw : ¬ r.allowance < 1)
    (huuid : uuidRegexTest (refAccountString r.account).data = true)
    (hnoconf : db.accounts.any
        (fun a => a.id = accountId ∨ a.pendingEmail = email ∨ a.email = some email) = false)
    (hp : db.proxies = proxyAddr :: rest) :
    addAccount db accountId email recap origin ip refCode (.ok ()) sa th cr ar =
      .ok ⟨⟨fun c => if c = refCode then some ⟨r.account, r.allowance - 1⟩ else db.refs c,
            db.accounts ++ [⟨accountId, none, String.mk (jsToLower email.data),
              (match r.account with
               | some acc => refAccountFirst acc
               | none => "undefined"),
              proxyAddr, none⟩],
            db.proxies.erase proxyAddr⟩,
           checkProxyPoolSize sa th cr ar,
           ⟨email, accountId, origin⟩⟩ := by
  unfold addAccount dbGetRef
  rw [hr, hp]
  simp [hid, hemail, href, halw, huuid, hnoconf, hp]
  intro x hx
  simpa using (List.any_eq_false.mp hnoconf) x hx

/-- Exhaustion characterization of `addAccount`: with the referral read
succeeding, a proxy available, and allowance below 1, the call fails with
the Teapot invite-exhausted error and no state is returned. -/
theorem addAccount_teapot (db : DB)
    (accountId email recap origin ip refCode proxyAddr : String) (rest : List String)
    (sa : Bool) (th : Nat) (cr : Except String Nat) (ar : Except String Unit)
    (r : RefEntry)
    (hid : uuidRegexTest accountId.data = true)
    (hemail : emailRegexTest email.data = true)
    (href : refRegexTest refCode.data = true)
    (hr : db.refs refCode = some r)
    (halw : r.allowance < 1)
    (hp : db.proxies = proxyAddr :: rest) :
    addAccount db accountId email recap origin ip refCode (.ok ()) sa th cr ar =
      .error (.teapot "referral invite limit reached") := by
  unfold addAccount dbGetRef
  rw [hr, hp]
  simp [hid, hemail, href, halw]

/-- Referral table with an exhausted sentinel (allowance 0) and a live
named code `aaaaaaaa` (allowance 1) bound to a uuid account; one pooled
proxy; no accounts. -/
def c1Db : DB :=
  ⟨fun c =>
     if c = "aaaaaaaa" then some ⟨some (.str "bd3afb0d-7a91-4ab4-9d47-cc4b58ed5d69"), 1⟩
     else if c = "00000000" then some ⟨some (.str "bd3afb0d-7a91-4ab4-9d47-cc4b58ed5d69"), 0⟩
     else none,
   [],
   ["0xproxy1"]⟩

end Poker

/-- C1: counterexample.  With the global sentinel code at allowance 0 and a
valid named code at allowance 1, `addAccount` succeeds and persists the
account — the global allowance is never consulted by `addAccount`, contrary
to the claim that the signup fails with nothing persisted. -/
theorem C1_counterexample :
    Poker.c1Db.refs "00000000" =
      some ⟨some (.str "bd3afb0d-7a91-4ab4-9d47-cc4b58ed5d69"), 0⟩ ∧
    (Poker.addAccount Poker.c1Db "f47ac10b-58cc-4372-a567-0e02b2c3d479" "a@b.co"
        "recap" "origin" "ip" "aaaaaaaa" (.ok ()) false 0 (.ok 0) (.ok ())).map
      (fun o => o.db.accounts.length) = .ok 1 := by
  constructor
  · rfl
  · rfl

/-- C1 (amended): the global sentinel allowance does not gate `addAccount`.
For a valid non-sentinel referral code with allowance at least 1 bound to a
uuid account, no conflict and an available proxy, the signup succeeds and
persists the account and the decremented allowance even while the global
code's allowance is below 1. -/
theorem C1_signup_ignores_global (db : Poker.DB)
    (accountId email recap origin ip refCode proxyAddr : String) (rest : List String)
    (g r : Poker.RefEntry)
    (hglob : db.refs "00000000" = some g)
    (hgl : g.allowance < 1)
    (hns : refCode ≠ "00000000")
    (hid : Poker.uuidRegexTest accountId.data = true)
    (hemail : Poker.emailRegexTest email.data = true)
    (href : Poker.refRegexTest refCode.data = true)
    (hr : db.refs refCode = some r)
    (halw : 1 ≤ r.allowance)
    (huuid : Poker.uuidRegexTest (Poker.refAccountString r.account).data = true)
    (hnoconf : db.accounts.any
        (fun a => a.id = accountId ∨ a.pendingEmail = email ∨ a.email = some email) = false)
    (hp : db.proxies = proxyAddr :: rest) :
    ∃ out, Poker.addAccount db accountId email recap origin ip refCode
        (.ok ()) false 0 (.ok 0) (.ok ()) = .ok out ∧
      out.db.accounts = db.accounts ++ [⟨accountId, none,
        String.mk (Poker.jsToLower email.data),
        (match r.account with
         | some acc => Poker.refAccountFirst acc
         | none => "undefined"),
        proxyAddr, none⟩] ∧
      out.db.refs refCode = some ⟨r.account, r.allowance - 1⟩ := by
  refine ⟨_, Poker.addAccount_success db accountId email recap origin ip refCode
    proxyAddr rest false 0 (.ok 0) (.ok ()) r hid hemail href hr
    (by omega) huuid hnoconf hp, rfl, by simp⟩

/-- C1 witness: the amended theorem at the concrete `c1Db` state. -/
theorem C1_signup_ignores_global_witness :
    ∃ out, Poker.addAccount Poker.c1Db "f47ac10b-58cc-4372-a567-0e02b2c3d479"
        "a@b.co" "recap" "origin" "ip" "aaaaaaaa" (.ok ()) false 0 (.ok 0) (.ok ()) =
        .ok out ∧
      out.db.accounts = Poker.c1Db.accounts ++ [⟨"f47ac10b-58cc-4372-a567-0e02b2c3d479",
        none, String.mk (Poker.jsToLower "a@b.co".data),
        (match (some (Poker.RefAccount.str "bd3afb0d-7a91-4ab4-9d47-cc4b58ed5d69") :
            Option Poker.RefAccount) with
         | some acc => Poker.refAccountFirst acc
         | none => "undefined"),
        "0xproxy1", none⟩] ∧
      out.db.refs "aaaaaaaa" =
        some ⟨some (.str "bd3afb0d-7a91-4ab4-9d47-cc4b58ed5d69"), 0⟩ := by
  exact C1_signup_ignores_global Poker.c1Db "f47ac10b-58cc-4372-a567-0e02b2c3d479"
    "a@b.co" "recap" "origin" "ip" "aaaaaaaa" "0xproxy1" []
    ⟨some (.str "bd3afb0d-7a91-4ab4-9d47-cc4b58ed5d69"), 0⟩
    ⟨some (.str "bd3afb0d-7a91-4ab4-9d47-cc4b58ed5d69"), 1⟩
    rfl (by decide) (by decide) (by decide) (by decide) (by decide)
    rfl (by decide) (by decide) (by decide) rfl

/-- C5: the Referral Allocator's two gates.  For a well-formed code with
both rows readable, an exhausted global code yields `EnhanceYourCalm`
whatever the named code's allowance (the global check runs first), and a
live global code with an exhausted named code yields `Teapot` (for the
sentinel itself the named allowance is the short-circuited 1). -/
theorem C5_getRef_gates (db : Poker.DB) (refCode : String) (g r : Poker.RefEntry)
    (href : Poker.refRegexTest refCode.data = true)
    (hglob : db.refs "00000000" = some g)
    (hr : db.refs refCode = some r) :
    (g.allowance < 1 →
      Poker.getRef db refCode = .error (.enhanceYourCalm "global limit reached")) ∧
    (1 ≤ g.allowance →
      (if "00000000" = refCode then (1 : ℤ) else r.allowance) < 1 →
      Poker.getRef db refCode = .error (.teapot "account invite limit reached")) := by
  unfold Poker.getRef Poker.dbGetRef
  by_cases hs : "00000000" = refCode
  · subst hs
    constructor
    · intro hg
      simp [href, hglob, hg]
    · intro hge hlt
      rw [if_pos rfl] at hlt
      exact absurd hlt (by omega)
  · constructor
    · intro hg
      rw [hglob, hr]
      simp [href, hs, hg]
    · intro hge hlt
      rw [if_neg hs] at hlt
      rw [hglob, hr]
      have hng : ¬ g.allowance < 1 := by omega
      simp [href, hs, hng, hlt]

/-- C5 witness state: exhausted global code, live named code `abcd1234`. -/
def c5Db : Poker.DB :=
  ⟨fun c =>
     if c = "00000000" then some ⟨some (.str "gacct"), 0⟩
     else if c = "abcd1234" then some ⟨some (.str "racct"), 5⟩
     else none,
   [], []⟩

/-- C5 witness: `C5_getRef_gates` at `c5Db` — the global gate fires first
with `EnhanceYourCalm` although the named code is live. -/
theorem C5_getRef_gates_witness :
    Poker.getRef c5Db "abcd1234" = .error (.enhanceYourCalm "global limit reached") := by
  exact (C5_getRef_gates c5Db "abcd1234" ⟨some (.str "gacct"), 0⟩
    ⟨some (.str "racct"), 5⟩ (by decide) rfl rfl).1 (by decide)

/-- C7: the pool-size check is fully isolated.  Whatever the outcomes of
`getAvailableProxiesCount` and `sendAlert` (including rejections), the
result of `addAccount` — error or success, persisted state and email send
request — is unchanged. -/
theorem C7_pool_check_isolated (db : Poker.DB)
    (accountId email recap origin ip refCode : String)
    (recaptchaRes : Except String Unit)
    (sa1 sa2 : Bool) (th1 th2 : Nat)
    (cr1 cr2 : Except String Nat) (ar1 ar2 : Except String Unit) :
    (Poker.addAccount db accountId email recap origin ip refCode recaptchaRes
        sa1 th1 cr1 ar1).map (fun o => (o.db, o.sent)) =
    (Poker.addAccount db accountId email recap origin ip refCode recaptchaRes
        sa2 th2 cr2 ar2).map (fun o => (o.db, o.sent)) := by
  unfold Poker.addAccount
  repeat' split <;> try rfl

namespace Poker

/-! ## Sequential consumption of a referral code -/

/-- One signup attempt of the sequential-consumption driver: `addAccount`
with the `k`-th candidate id/email, a fixed referral code, the captcha
passing, and fixed (irrelevant, isolated) pool-check inputs. -/
def signupStep (ids emails : Nat → String) (recap origin ip refCode : String)
    (db : DB) (k : Nat) : Except Err AddOutcome :=
  addAccount db (ids k) (emails k) recap origin ip refCode
    (.ok ()) false 0 (.ok 0) (.ok ())

/-- State after `m` sequential signup attempts; a failed attempt leaves
the state unchanged. -/
def runSignups (ids emails : Nat → String) (recap origin ip refCode : String)
    (db0 : DB) : Nat → DB
  | 0 => db0
  | m + 1 =>
      match signupStep ids emails recap origin ip refCode
          (runSignups ids emails recap origin ip refCode db0 m) m with
      | .ok o => o.db
      | .error _ => runSignups ids emails recap origin ip refCode db0 m

/-- With the named referral entry readable and exhausted, `addAccount`
always fails (shape errors, missing proxy, or the Teapot gate): no state
is produced. -/
theorem addAccount_exhausted_errors (db : DB)
    (accountId email recap origin ip refCode : String) (r : RefEntry)
    (hr : db.refs refCode = some r) (halw : r.allowance < 1) :
    ∃ e, addAccount db accountId email recap origin ip refCode
      (.ok ()) false 0 (.ok 0) (.ok ()) = .error e := by
  unfold addAccount dbGetRef
  rw [hr]
  repeat' split
  all_goals first
    | exact ⟨_, rfl⟩
    | (exfalso; simp_all; omega)

end Poker

namespace Poker

/-- One driver step succeeds at any state satisfying the consumption
invariant with `k < N`, producing the decremented and extended state. -/
theorem signupStep_ok (ids emails : Nat → String)
    (recap origin ip refCode : String) (db0 dbk : DB) (acc : RefAccount)
    (N k : Nat) (p : String) (rest : List String) (rows : List AccountRow)
    (href : refRegexTest refCode.data = true)
    (huuid : uuidRegexTest (refAccountString (some acc)).data = true)
    (hids : ∀ j ≤ N, uuidRegexTest (ids j).data = true)
    (hemails : ∀ j ≤ N, emailRegexTest (emails j).data = true)
    (hdid : ∀ i ≤ N, ∀ j ≤ N, i ≠ j → ids i ≠ ids j)
    (hdem : ∀ i ≤ N, ∀ j ≤ N, i ≠ j → emails i ≠ emails j)
    (hfresh : ∀ j ≤ N, ∀ a ∈ db0.accounts,
      a.id ≠ ids j ∧ a.pendingEmail ≠ emails j ∧ a.email ≠ some (emails j))
    (hkN : k < N)
    (h1 : dbk.refs refCode = some ⟨some acc, (N : ℤ) - k⟩)
    (h2a : dbk.accounts = db0.accounts ++ rows)
    (h2b : ∀ a ∈ rows, a.email = (none : Option String) ∧
      ∃ j, j < k ∧ a.id = ids j ∧ a.pendingEmail = emails j)
    (hp : dbk.proxies = p :: rest) :
    signupStep ids emails recap origin ip refCode dbk k =
      .ok ⟨⟨fun c => if c = refCode then some ⟨some acc, (N : ℤ) - k - 1⟩
                     else dbk.refs c,
            dbk.accounts ++ [⟨ids k, none, String.mk (jsToLower (emails k).data),
              refAccountFirst acc, p, none⟩],
            dbk.proxies.erase p⟩,
           checkProxyPoolSize false 0 (.ok 0) (.ok ()),
           ⟨emails k, ids k, origin⟩⟩ := by
  have hkN' : k ≤ N := le_of_lt hkN
  have hnoconf : dbk.accounts.any
      (fun a => a.id = ids k ∨ a.pendingEmail = emails k ∨
        a.email = some (emails k)) = false := by
    rw [List.any_eq_false]
    intro a ha
    rw [h2a] at ha
    rcases List.mem_append.mp ha with ha0 | har
    · have h := hfresh k hkN' a ha0
      simp [h.1, h.2.1, h.2.2]
    · obtain ⟨hmail, j, hj, hid', hpe⟩ := h2b a har
      have hne1 : ids j ≠ ids k := hdid j (by omega) k hkN' (by omega)
      have hne2 : emails j ≠ emails k := hdem j (by omega) k hkN' (by omega)
      simp [hid', hpe, hmail, hne1, hne2]
  have halw : ¬ ((⟨some acc, (N : ℤ) - k⟩ : RefEntry).allowance < 1) := by
    simp only []
    omega
  have hstep := addAccount_success dbk (ids k) (emails k) recap origin ip refCode
    p rest false 0 (.ok 0) (.ok ()) ⟨some acc, (N : ℤ) - k⟩
    (hids k hkN') (hemails k hkN') href h1 halw huuid hnoconf hp
  simpa [signupStep, refAccountFirst] using hstep

/-- The consumption invariant after `m ≤ N` driver steps: the named code
holds allowance `N - m`, the accounts are the initial ones plus one row per
earlier input, and `m` proxies have been consumed. -/
theorem runSignups_inv (ids emails : Nat → String)
    (recap origin ip refCode : String) (db0 : DB) (acc : RefAccount) (N : Nat)
    (h0 : db0.refs refCode = some ⟨some acc, (N : ℤ)⟩)
    (href : refRegexTest refCode.data = true)
    (huuid : uuidRegexTest (refAccountString (some acc)).data = true)
    (hids : ∀ j ≤ N, uuidRegexTest (ids j).data = true)
    (hemails : ∀ j ≤ N, emailRegexTest (emails j).data = true)
    (hlower : ∀ j ≤ N, String.mk (jsToLower (emails j).data) = emails j)
    (hdid : ∀ i ≤ N, ∀ j ≤ N, i ≠ j → ids i ≠ ids j)
    (hdem : ∀ i ≤ N, ∀ j ≤ N, i ≠ j → emails i ≠ emails j)
    (hfresh : ∀ j ≤ N, ∀ a ∈ db0.accounts,
      a.id ≠ ids j ∧ a.pendingEmail ≠ emails j ∧ a.email ≠ some (emails j))
    (hprox : N + 1 ≤ db0.proxies.length) :
    ∀ m, m ≤ N →
      (runSignups ids emails recap origin ip refCode db0 m).refs refCode =
        some ⟨some acc, (N : ℤ) - m⟩ ∧
      (∃ rows, (runSignups ids emails recap origin ip refCode db0 m).accounts =
          db0.accounts ++ rows ∧
        ∀ a ∈ rows, a.email = (none : Option String) ∧
          ∃ j, j < m ∧ a.id = ids j ∧ a.pendingEmail = emails j) ∧
      (runSignups ids emails recap origin ip refCode db0 m).proxies.length + m =
        db0.proxies.length := by
  intro m
  induction m with
  | zero =>
      intro _
      exact ⟨by simpa using h0, ⟨[], by simp [runSignups], by simp⟩,
        by simp [runSignups]⟩
  | succ m ih =>
      intro hm1
      obtain ⟨i1, ⟨rows, i2a, i2b⟩, i3⟩ := ih (by omega)
      obtain ⟨p, rest, hp⟩ : ∃ p rest,
          (runSignups ids emails recap origin ip refCode db0 m).proxies =
            p :: rest := by
        cases hq : (runSignups ids emails recap origin ip refCode db0 m).proxies with
        | nil =>
            rw [hq] at i3
            simp at i3
            omega
        | cons p rest => exact ⟨p, rest, rfl⟩
      have hstep := signupStep_ok ids emails recap origin ip refCode db0 _ acc N m
        p rest rows href huuid hids hemails hdid hdem hfresh (by omega) i1 i2a i2b hp
      have hrun : runSignups ids emails recap origin ip refCode db0 (m + 1) =
          ⟨fun c => if c = refCode then some ⟨some acc, (N : ℤ) - m - 1⟩
                    else (runSignups ids emails recap origin ip refCode db0 m).refs c,
           (runSignups ids emails recap origin ip refCode db0 m).accounts ++
             [⟨ids m, none, String.mk (jsToLower (emails m).data),
               refAccountFirst acc, p, none⟩],
           (runSignups ids emails recap origin ip refCode db0 m).proxies.erase p⟩ := by
        show (match signupStep ids emails recap origin ip refCode
            (runSignups ids emails recap origin ip refCode db0 m) m with
          | .ok o => o.db
          | .error _ => runSignups ids emails recap origin ip refCode db0 m) = _
        rw [hstep]
      refine ⟨?_, ?_, ?_⟩
      · rw [hrun]
        have he : (N : ℤ) - m - 1 = (N : ℤ) - (m + 1 : ℕ) := by push_cast; ring
        simp [he]
      · refine ⟨rows ++ [⟨ids m, none, String.mk (jsToLower (emails m).data),
          refAccountFirst acc, p, none⟩], ?_, ?_⟩
        · rw [hrun]
          simp only [i2a, List.append_assoc]
        · intro a ha
          rcases List.mem_append.mp ha with h | h
          · obtain ⟨hmail, j, hj, hrest⟩ := i2b a h
            exact ⟨hmail, j, by omega, hrest⟩
          · have ha' : a = ⟨ids m, none, String.mk (jsToLower (emails m).data),
                refAccountFirst acc, p, none⟩ := by simpa using h
            subst ha'
            exact ⟨rfl, m, by omega, rfl, hlower m (by omega)⟩
      · rw [hrun]
        simp only [hp, List.erase_cons_head]
        rw [hp] at i3
        simp at i3
        omega

/-- Past `N` steps the state is frozen: every further attempt fails on the
exhausted code. -/
theorem runSignups_stuck (ids emails : Nat → String)
    (recap origin ip refCode : String) (db0 : DB) (acc : RefAccount) (N : Nat)
    (h0 : db0.refs refCode = some ⟨some acc, (N : ℤ)⟩)
    (href : refRegexTest refCode.data = true)
    (huuid : uuidRegexTest (refAccountString (some acc)).data = true)
    (hids : ∀ j ≤ N, uuidRegexTest (ids j).data = true)
    (hemails : ∀ j ≤ N, emailRegexTest (emails j).data = true)
    (hlower : ∀ j ≤ N, String.mk (jsToLower (emails j).data) = emails j)
    (hdid : ∀ i ≤ N, ∀ j ≤ N, i ≠ j → ids i ≠ ids j)
    (hdem : ∀ i ≤ N, ∀ j ≤ N, i ≠ j → emails i ≠ emails j)
    (hfresh : ∀ j ≤ N, ∀ a ∈ db0.accounts,
      a.id ≠ ids j ∧ a.pendingEmail ≠ emails j ∧ a.email ≠ some (emails j))
    (hprox : N + 1 ≤ db0.proxies.length) :
    ∀ m, N ≤ m →
      runSignups ids emails recap origin ip refCode db0 m =
        runSignups ids emails recap origin ip refCode db0 N := by
  intro m
  induction m with
  | zero =>
      intro h
      have hN0 : N = 0 := by omega
      rw [hN0]
  | succ m ih =>
      intro hNm
      by_cases hEq : N = m + 1
      · rw [hEq]
      · have hNm' : N ≤ m := by omega
        have hrunm := ih hNm'
        have hz : (runSignups ids emails recap origin ip refCode db0 N).refs refCode =
            some ⟨some acc, (N : ℤ) - N⟩ :=
          (runSignups_inv ids emails recap origin ip refCode db0 acc N
            h0 href huuid hids hemails hlower hdid hdem hfresh hprox N
            (le_refl N)).1
        obtain ⟨e, he⟩ := addAccount_exhausted_errors
          (runSignups ids emails recap origin ip refCode db0 N)
          (ids m) (emails m) recap origin ip refCode
          ⟨some acc, (N : ℤ) - N⟩ hz (by simp)
        have he2 : signupStep ids emails recap origin ip refCode
            (runSignups ids emails recap origin ip refCode db0 N) m = .error e := he
        show (match signupStep ids emails recap origin ip refCode
            (runSignups ids emails recap origin ip refCode db0 m) m with
          | .ok o => o.db
          | .error _ => runSignups ids emails recap origin ip refCode db0 m) = _
        rw [hrunm, he2]

end Poker

/-- C4: sequential consumption of an allowance-`N` referral code.  (a) the
stored allowance after `m` driver steps is exactly `N - min m N` and never
below zero; (b) each of the first `N` attempts succeeds (consuming one
unit); (c) the `(N+1)`-th attempt fails with the Teapot invite-exhausted
error. -/
theorem C4_sequential_consumption (ids emails : Nat → String)
    (recap origin ip refCode : String) (db0 : Poker.DB)
    (acc : Poker.RefAccount) (N : Nat)
    (h0 : db0.refs refCode = some ⟨some acc, (N : ℤ)⟩)
    (href : Poker.refRegexTest refCode.data = true)
    (huuid : Poker.uuidRegexTest (Poker.refAccountString (some acc)).data = true)
    (hids : ∀ j ≤ N, Poker.uuidRegexTest (ids j).data = true)
    (hemails : ∀ j ≤ N, Poker.emailRegexTest (emails j).data = true)
    (hlower : ∀ j ≤ N, String.mk (Poker.jsToLower (emails j).data) = emails j)
    (hdid : ∀ i ≤ N, ∀ j ≤ N, i ≠ j → ids i ≠ ids j)
    (hdem : ∀ i ≤ N, ∀ j ≤ N, i ≠ j → emails i ≠ emails j)
    (hfresh : ∀ j ≤ N, ∀ a ∈ db0.accounts,
      a.id ≠ ids j ∧ a.pendingEmail ≠ emails j ∧ a.email ≠ some (emails j))
    (hprox : N + 1 ≤ db0.proxies.length) :
    (∀ m, (Poker.runSignups ids emails recap origin ip refCode db0 m).refs refCode =
        some ⟨some acc, (N : ℤ) - (min m N : ℕ)⟩ ∧
      (0 : ℤ) ≤ (N : ℤ) - (min m N : ℕ)) ∧
    (∀ k, k < N → ∃ o, Poker.signupStep ids emails recap origin ip refCode
        (Poker.runSignups ids emails recap origin ip refCode db0 k) k = .ok o) ∧
    Poker.signupStep ids emails recap origin ip refCode
        (Poker.runSignups ids emails recap origin ip refCode db0 N) N =
      .error (.teapot "referral invite limit reached") := by
  have inv := Poker.runSignups_inv ids emails recap origin ip refCode db0 acc N
    h0 href huuid hids hemails hlower hdid hdem hfresh hprox
  refine ⟨?_, ?_, ?_⟩
  · intro m
    refine ⟨?_, ?_⟩
    · by_cases hm : m ≤ N
      · rw [min_eq_left hm]
        exact (inv m hm).1
      · have hNm : N ≤ m := by omega
        rw [Poker.runSignups_stuck ids emails recap origin ip refCode db0 acc N
          h0 href huuid hids hemails hlower hdid hdem hfresh hprox m hNm]
        rw [min_eq_right hNm]
        exact (inv N (le_refl N)).1
    · have := Nat.min_le_right m N
      omega
  · intro k hk
    obtain ⟨i1, ⟨rows, i2a, i2b⟩, i3⟩ := inv k (le_of_lt hk)
    obtain ⟨p, rest, hp⟩ : ∃ p rest,
        (Poker.runSignups ids emails recap origin ip refCode db0 k).proxies =
          p :: rest := by
      cases hq : (Poker.runSignups ids emails recap origin ip refCode db0 k).proxies with
      | nil =>
          rw [hq] at i3
          simp at i3
          omega
      | cons p rest => exact ⟨p, rest, rfl⟩
    exact ⟨_, Poker.signupStep_ok ids emails recap origin ip refCode db0 _ acc N k
      p rest rows href huuid hids hemails hdid hdem hfresh hk i1 i2a i2b hp⟩
  · obtain ⟨i1, _, i3⟩ := inv N (le_refl N)
    obtain ⟨p, rest, hp⟩ : ∃ p rest,
        (Poker.runSignups ids emails recap origin ip refCode db0 N).proxies =
          p :: rest := by
      cases hq : (Poker.runSignups ids emails recap origin ip refCode db0 N).proxies with
      | nil =>
          rw [hq] at i3
          simp at i3
          omega
      | cons p rest => exact ⟨p, rest, rfl⟩
    exact Poker.addAccount_teapot
      (Poker.runSignups ids emails recap origin ip refCode db0 N)
      (ids N) (emails N) recap origin ip refCode p rest false 0 (.ok 0) (.ok ())
      ⟨some acc, (N : ℤ) - N⟩ (hids N (le_refl N)) (hemails N (le_refl N))
      href i1 (by simp) hp

namespace Poker

/-- Allowance-1 referral table for the C4 witness: code `aaaaaaaa` bound to
a uuid account, two pooled proxies, no accounts. -/
def c4Db : DB :=
  ⟨fun c => if c = "aaaaaaaa"
      then some ⟨some (.str "bd3afb0d-7a91-4ab4-9d47-cc4b58ed5d69"), 1⟩
      else none,
   [], ["p1", "p2"]⟩

/-- Candidate account ids for the C4 witness. -/
def c4Ids : Nat → String := fun k =>
  if k = 0 then "f47ac10b-58cc-4372-a567-0e02b2c3d479"
  else "0b1f3a44-9c1d-4f3a-8b2e-2d4c6e8a0b1d"

/-- Candidate emails for the C4 witness. -/
def c4Emails : Nat → String := fun k =>
  if k = 0 then "a0@b.co" else "a1@b.co"

end Poker

/-- C4 witness: `C4_sequential_consumption` at the allowance-1 state — the
first attempt consumes the only unit, the second fails with Teapot, and the
stored allowance afterwards is 0. -/
theorem C4_sequential_consumption_witness :
    (Poker.runSignups Poker.c4Ids Poker.c4Emails "r" "o" "i" "aaaaaaaa"
        Poker.c4Db 2).refs "aaaaaaaa" =
      some ⟨some (.str "bd3afb0d-7a91-4ab4-9d47-cc4b58ed5d69"), 0⟩ ∧
    (∃ o, Poker.signupStep Poker.c4Ids Poker.c4Emails "r" "o" "i" "aaaaaaaa"
        (Poker.runSignups Poker.c4Ids Poker.c4Emails "r" "o" "i" "aaaaaaaa"
          Poker.c4Db 0) 0 = .ok o) ∧
    Poker.signupStep Poker.c4Ids Poker.c4Emails "r" "o" "i" "aaaaaaaa"
        (Poker.runSignups Poker.c4Ids Poker.c4Emails "r" "o" "i" "aaaaaaaa"
          Poker.c4Db 1) 1 =
      .error (.teapot "referral invite limit reached") := by
  have h := C4_sequential_consumption Poker.c4Ids Poker.c4Emails "r" "o" "i"
    "aaaaaaaa" Poker.c4Db (.str "bd3afb0d-7a91-4ab4-9d47-cc4b58ed5d69") 1
    rfl (by decide) (by decide)
    (by
      intro j hj
      have hj2 : j = 0 ∨ j = 1 := by omega
      rcases hj2 with hj2 | hj2 <;> subst hj2 <;> decide)
    (by
      intro j hj
      have hj2 : j = 0 ∨ j = 1 := by omega
      rcases hj2 with hj2 | hj2 <;> subst hj2 <;> decide)
    (by
      intro j hj
      have hj2 : j = 0 ∨ j = 1 := by omega
      rcases hj2 with hj2 | hj2 <;> subst hj2 <;> decide)
    (by
      intro i hi j hj hne
      have hc : (i = 0 ∧ j = 1) ∨ (i = 1 ∧ j = 0) := by omega
      rcases hc with ⟨h1, h2⟩ | ⟨h1, h2⟩ <;> subst h1 <;> subst h2 <;> decide)
    (by
      intro i hi j hj hne
      have hc : (i = 0 ∧ j = 1) ∨ (i = 1 ∧ j = 0) := by omega
      rcases hc with ⟨h1, h2⟩ | ⟨h1, h2⟩ <;> subst h1 <;> subst h2 <;> decide)
    (by
      intro j hj a ha
      exact absurd ha (List.not_mem_nil a))
    (by decide)
  refine ⟨?_, ?_, ?_⟩
  · have h1 := (h.1 2).1
    simpa using h1
  · exact h.2.1 0 (by omega)
  · exact h.2.2

namespace Poker

/-! ## Wallet binding and reset -/

/-- A parsed wallet JSON object: only the `address` field is inspected
(`none` when the field is absent). -/
structure ParsedWallet where
  address : Option String
deriving DecidableEq

/-- Function `isAddress` on a possibly-`undefined` field (`undefined` never has the
40-hex shape). -/
def isAddressOpt : Option String → Bool
  | none => false
  | some s => isAddress s.data

/-- Function `checkWallet(walletStr)` from the source: JSON parse (BadRequest on
failure) then address validation (BadRequest).  `jsonParse` is the
`JSON.parse` capability, `none` for a parse error. -/
def checkWallet (jsonParse : String → Option ParsedWallet) (walletStr : String) :
    Except Err ParsedWallet :=
  match jsonParse walletStr with
  | none => .error (.badRequest "invalid wallet json")
  | some wallet =>
      if ¬ isAddressOpt wallet.address then
        .error (.badRequest "invalid address in wallet")
      else .ok wallet

/-- Hex digits of `n`, most significant first (structural fuel). -/
def natToHexAux : Nat → Nat → List Char
  | 0, _ => []
  | _ + 1, 0 => []
  | fuel + 1, n => natToHexAux fuel (n / 16) ++ [hexChar (n % 16)]

/-- JavaScript `n.toString(16)` for a nonnegative integer: lowercase hex,
no zero padding. -/
def natToHex (n : Nat) : String :=
  if n = 0 then "0" else String.mk (natToHexAux 64 n)

/-- The `WalletCreated` notification published by `setWallet`. -/
structure WalletNotification where
  subject : String
  accountId : String
  email : Option String
  signerAddr : String
deriving DecidableEq

/-- Successful `setWallet` result: updated state and the notification. -/
structure SetWalletOutcome where
  db : DB
  notification : WalletNotification

/-- Function `setWallet(sessionReceipt, walletStr, proxyAddr)` from the source:
Session Guard (create-confirmation, 2h), wallet validation, account load
(wallet must be unset, else Conflict), optional proxy rebinding with the
reserved proxy returned to the pool, persist of wallet + proxy, and a fresh
referral code `Math.floor(Math.random() * 4294967295).toString(16)` stored
with allowance 3.  `rand` is the floored outcome of the random source,
ranging over 0 .. 4294967294. -/
def setWallet (jsonParse : String → Option ParsedWallet)
    (parseResult : Except String Receipt) (sessionAddr : String) (nowMs : ℚ)
    (walletStr : String) (proxyAddr : Option String)
    (db : DB) (rand : Nat) : Except Err SetWalletOutcome :=
  match checkSession parseResult sessionAddr RType.createConf 2 nowMs with
  | .error e => .error e
  | .ok session =>
    match checkWallet jsonParse walletStr with
    | .error e => .error e
    | .ok wallet =>
      match db.accounts.find? (fun a => a.id = session.accountId) with
      | none => .error (.collaborator "account not found")
      | some account =>
        match account.wallet with
        | some _ => .error (.conflict "wallet already set.")
        | none =>
          let finalProxy := match proxyAddr with
            | some pr => pr
            | none => account.proxyAddr
          let refCode := natToHex rand
          let addrStr := match wallet.address with
            | some a => a
            | none => ""
          let db2 : DB :=
            ⟨fun c => if c = refCode then some ⟨some (.str session.accountId), 3⟩
                      else db.refs c,
             db.accounts.map (fun a =>
               if a.id = session.accountId then
                 { a with wallet := some ⟨walletStr, addrStr⟩, proxyAddr := finalProxy }
               else a),
             match proxyAddr with
             | some _ => db.proxies ++ [account.proxyAddr]
             | none => db.proxies⟩
          .ok ⟨db2, ⟨"WalletCreated::" ++ addrStr, account.id, account.email, addrStr⟩⟩

/-- Function `resetWallet(sessionReceipt, walletStr)` from the source: Session Guard
(reset-confirmation, 2h), wallet validation, account load — must already
hold a wallet (Conflict), re-validation of the new address (BadRequest),
the new address must differ from the stored one (Conflict), then persist of
the new wallet with the account's existing proxy address. -/
def resetWallet (jsonParse : String → Option ParsedWallet)
    (parseResult : Except String Receipt) (sessionAddr : String) (nowMs : ℚ)
    (walletStr : String) (db : DB) : Except Err DB :=
  match checkSession parseResult sessionAddr RType.resetConf 2 nowMs with
  | .error e => .error e
  | .ok session =>
    match checkWallet jsonParse walletStr with
    | .error e => .error e
    | .ok wallet =>
      match db.accounts.find? (fun a => a.id = session.accountId) with
      | none => .error (.collaborator "account not found")
      | some account =>
        match account.wallet with
        | none => .error (.conflict "no existing wallet found.")
        | some stored =>
          match jsonParse stored.raw with
          | none => .error (.collaborator "JSON.parse failed on stored wallet")
          | some existing =>
            if ¬ isAddressOpt wallet.address then
              .error (.badRequest "invalid address in wallet")
            else if existing.address = wallet.address then
              .error (.conflict "can not reset wallet with same address.")
            else
              let addrStr := match wallet.address with
                | some a => a
                | none => ""
              .ok ⟨db.refs,
                db.accounts.map (fun a =>
                  if a.id = session.accountId then
                    { a with wallet := some ⟨walletStr, addrStr⟩,
                             proxyAddr := account.proxyAddr }
                  else a),
                db.proxies⟩

end Poker

namespace Poker

/-- Session receipt for the wallet-binding scenarios: signer `sess`,
create-confirmation, created at second 7200 (within the 2-hour window at
`nowMs = 7200000`). -/
def c8Receipt : Receipt :=
  ⟨"sess", RType.createConf, 7200, "f47ac10b-58cc-4372-a567-0e02b2c3d479"⟩

/-- One account without a wallet, for the `setWallet` scenario. -/
def c8Db : DB :=
  ⟨fun _ => none,
   [⟨"f47ac10b-58cc-4372-a567-0e02b2c3d479", none, "a@b.co", "ref", "0xproxy1", none⟩],
   []⟩

/-- JSON.parse capability for the `setWallet` scenario. -/
def c8JsonParse : String → Option ParsedWallet := fun s =>
  if s = "wstr" then some ⟨some "0123456789abcdef0123456789abcdef01234567"⟩ else none

end Poker

/-- C8: the referral code issued by `setWallet` is `toString(16)` of the
random outcome without zero padding; outcome 5 persists the one-character
code `"5"` (with allowance 3), which fails the system's own 8-hex
`refRegex` — contradicting the claim that every outcome yields an 8-hex
code. -/
theorem C8_short_refcode :
    Poker.natToHex 5 = "5" ∧
    Poker.refRegexTest (Poker.natToHex 5).data = false ∧
    (Poker.setWallet Poker.c8JsonParse (.ok Poker.c8Receipt) "sess" 7200000
        "wstr" none Poker.c8Db 5).map (fun o => o.db.refs "5") =
      .ok (some ⟨some (.str "f47ac10b-58cc-4372-a567-0e02b2c3d479"), 3⟩) := by
  refine ⟨rfl, by decide, ?_⟩
  have hnlt : ¬ ((7200 : ℚ) < 7200000 / 1000 - 60 * 60 * 2) := by norm_num
  have hneg : ¬ ((2 : ℚ) < 0) := by norm_num
  have hsess : Poker.checkSession (.ok Poker.c8Receipt) "sess"
      Poker.RType.createConf 2 7200000 = .ok Poker.c8Receipt := by
    simp [Poker.checkSession, Poker.c8Receipt, hnlt, hneg]
  unfold Poker.setWallet
  rw [hsess]
  rfl

/-- C9: `resetWallet` never changes any account's proxy address (nor the
pool): a successful reset persists the new wallet with the loaded account's
existing `proxyAddr`.  Account ids are assumed unique (they are the storage
key). -/
theorem C9_resetWallet_preserves_proxy
    (jsonParse : String → Option Poker.ParsedWallet)
    (parseResult : Except String Poker.Receipt) (sessionAddr : String)
    (nowMs : ℚ) (walletStr : String) (db db2 : Poker.DB)
    (hUnique : db.accounts.Pairwise (fun a b => a.id ≠ b.id))
    (h : Poker.resetWallet jsonParse parseResult sessionAddr nowMs walletStr db =
      .ok db2) :
    db2.accounts.map (fun a => (a.id, a.proxyAddr)) =
      db.accounts.map (fun a => (a.id, a.proxyAddr)) ∧
    db2.proxies = db.proxies := by
  unfold Poker.resetWallet at h
  repeat' split at h
  all_goals try (exact Except.noConfusion h)
  · rename_i x4 session heq5 x3 wallet1 heq4 x2 account heqf x1 stored heqwal
      x0 existing heqjp hb hne pv pr heqA
    have hacc : account.id = session.accountId := by
      simpa using List.find?_some heqf
    have hone : ∀ a ∈ db.accounts, a.id = session.accountId → a = account := by
      intro a ha hid
      by_contra hcne
      have hmem := List.mem_of_find?_eq_some heqf
      have hR := hUnique.forall (fun x y hxy => (Ne.symm hxy)) ha hmem hcne
      exact hR (hid.trans hacc.symm)
    simp only [Except.ok.injEq] at h
    subst h
    constructor
    · dsimp only
      rw [List.map_map]
      refine List.map_congr_left ?_
      intro a ha
      by_cases hid : a.id = session.accountId
      · have haacc : a = account := hone a ha hid
        subst haacc
        simp [hid]
      · simp [hid]
    · rfl
  · rename_i x4 session heq5 x3 wallet1 heq4 x2 account heqf x1 stored heqwal
      x0 existing heqjp hb hne pv heqA
    simp [Poker.isAddressOpt, heqA] at hb

namespace Poker

/-- Reset-confirmation receipt for the C9 witness. -/
def c9Receipt : Receipt := ⟨"sess", RType.resetConf, 7200, "acct1"⟩

/-- One account holding wallet `w1`, for the C9 witness. -/
def c9Db : DB :=
  ⟨fun _ => none,
   [⟨"acct1", none, "a@b.co", "ref", "0xproxy9",
     some ⟨"w1", "aaaaaaaaaaaaaaaaaaaaaaaaaaaaaaaaaaaaaaaa"⟩⟩],
   ["pool1"]⟩

/-- JSON.parse capability for the C9 witness. -/
def c9JsonParse : String → Option ParsedWallet := fun s =>
  if s = "w2" then some ⟨some "bbbbbbbbbbbbbbbbbbbbbbbbbbbbbbbbbbbbbbbb"⟩
  else if s = "w1" then some ⟨some "aaaaaaaaaaaaaaaaaaaaaaaaaaaaaaaaaaaaaaaa"⟩
  else none

end Poker

/-- C9 witness: `C9_resetWallet_preserves_proxy` at a concrete successful
reset — the persisted row keeps proxy `0xproxy9` and the pool is
untouched. -/
theorem C9_resetWallet_preserves_proxy_witness :
    (⟨Poker.c9Db.refs,
      [⟨"acct1", none, "a@b.co", "ref", "0xproxy9",
        some ⟨"w2", "bbbbbbbbbbbbbbbbbbbbbbbbbbbbbbbbbbbbbbbb"⟩⟩],
      ["pool1"]⟩ : Poker.DB).accounts.map (fun a => (a.id, a.proxyAddr)) =
      Poker.c9Db.accounts.map (fun a => (a.id, a.proxyAddr)) ∧
    (⟨Poker.c9Db.refs,
      [⟨"acct1", none, "a@b.co", "ref", "0xproxy9",
        some ⟨"w2", "bbbbbbbbbbbbbbbbbbbbbbbbbbbbbbbbbbbbbbbb"⟩⟩],
      ["pool1"]⟩ : Poker.DB).proxies = Poker.c9Db.proxies := by
  have hnlt : ¬ ((7200 : ℚ) < 7200000 / 1000 - 60 * 60 * 2) := by norm_num
  have hneg : ¬ ((2 : ℚ) < 0) := by norm_num
  have hsess : Poker.checkSession (.ok Poker.c9Receipt) "sess"
      Poker.RType.resetConf 2 7200000 = .ok Poker.c9Receipt := by
    simp [Poker.checkSession, Poker.c9Receipt, hnlt, hneg]
  have h : Poker.resetWallet Poker.c9JsonParse (.ok Poker.c9Receipt) "sess"
      7200000 "w2" Poker.c9Db =
      .ok ⟨Poker.c9Db.refs,
        [⟨"acct1", none, "a@b.co", "ref", "0xproxy9",
          some ⟨"w2", "bbbbbbbbbbbbbbbbbbbbbbbbbbbbbbbbbbbbbbbb"⟩⟩],
        ["pool1"]⟩ := by
    unfold Poker.resetWallet
    rw [hsess]
    rfl
  exact C9_resetWallet_preserves_proxy Poker.c9JsonParse (.ok Poker.c9Receipt)
    "sess" 7200000 "w2" Poker.c9Db _ (by simp [Poker.c9Db]) h

namespace Poker

/-! ## `queryAccount` and the fabricated account

`fakeId` takes the hex digest of the salted email; `hash.match(/[1-5]/)[0]`
and `hash.match(/[89ab]/)[0]` pick the first character of each class and
*throw* (`[0]` of `null`) when the digest has none — modelled by `none`.
The string-to-bytes conversion is UTF-8, as `ethUtil.sha3` does for
non-hex-prefixed strings. -/

/-- Function `fakeId(email)` from the source: a uuid-shaped id assembled from digest
slices; `none` models the thrown TypeError when a character class has no
match in the digest. -/
def fakeId (email : String) : Option String :=
  let hash := sha3Hex (email ++ "fakeid[405723v5")
  match hash.find? (fun c => 49 ≤ c.toNat && c.toNat ≤ 53),
        hash.find? (fun c => c = '8' ∨ c = '9' ∨ c = 'a' ∨ c = 'b') with
  | some p3, some p5 =>
      some (String.mk (hash.take 8 ++ ['-'] ++ ((hash.drop 8).take 4) ++ ['-'] ++
        [p3] ++ ((hash.drop 12).take 3) ++ ['-'] ++
        [p5] ++ ((hash.drop 15).take 3) ++ ['-'] ++ ((hash.drop 18).take 12)))
  | _, _ => none

/-- The fabricated proxy address: first 20 digest bytes, hex, `0x`-prefixed. -/
def fakeProxyAddr (email : String) : String :=
  String.mk ('0' :: 'x' :: bytesHex ((sha3 (email ++ "proxyAddrobeqw4cq")).take 20))

/-- The fabricated wallet JSON string, mirroring `JSON.stringify` of the
object literal in the source (insertion order, no spaces). -/
def fakeWalletJson (email : String) : String :=
  let address := String.mk ('0' :: 'x' :: bytesHex ((sha3 (email ++ "addressawobeqw4cq")).take 20))
  let iv := String.mk (bytesHex ((sha3 (email ++ "cipherparamsivaic4w6b")).take 16))
  let ciphertext := String.mk (bytesHex ((sha3 (email ++ "ciphertextaoc84noq354")).take 32))
  let salt := String.mk (bytesHex ((sha3 (email ++ "kdfparamssalta7c465oa754")).take 32))
  let mac := String.mk (bytesHex ((sha3 (email ++ "maco8wb47q5496q38745")).take 32))
  "\x7b\"address\":\"" ++ address ++
  "\",\"Crypto\":\x7b\"cipher\":\"aes-128-ctr\",\"cipherparams\":\x7b\"iv\":\"" ++ iv ++
  "\"\x7d,\"ciphertext\":\"" ++ ciphertext ++
  "\",\"kdf\":\"scrypt\",\"kdfparams\":\x7b\"dklen\":32,\"n\":65536,\"r\":1,\"p\":8,\"salt\":\"" ++
  salt ++ "\"\x7d,\"mac\":\"" ++ mac ++ "\"\x7d,\"version\":3\x7d"

/-- What `queryAccount` resolves with (for present and absent accounts
alike): id, proxy address, and the raw wallet JSON when any. -/
structure QueryResult where
  id : String
  proxyAddr : String
  wallet : Option String
deriving DecidableEq

/-- Function `queryAccount(email)` from the source: a present account's row is
projected to (id, proxyAddr, wallet); a missing account (rejected lookup)
is answered by the fabricated deterministic account, except that a digest
without the needed character classes makes the fabrication itself throw,
rejecting the call. -/
def queryAccount (db : DB) (email : String) : Except String QueryResult :=
  match db.accounts.find? (fun a => a.pendingEmail = email ∨ a.email = some email) with
  | some account => .ok ⟨account.id, account.proxyAddr,
      account.wallet.map (fun w => w.raw)⟩
  | none =>
      match fakeId email with
      | some fid => .ok ⟨fid, fakeProxyAddr email, some (fakeWalletJson email)⟩
      | none => .error "TypeError: cannot read property 0 of null"

/-- Storage with no accounts at all. -/
def emptyDb : DB := ⟨fun _ => none, [], []⟩

/-- An email whose salted digest
(`33454f46714fe13726136e7f67744f6cec1f7d667776cf17c1cffd313d34d65e`)
contains no character in `[89ab]`, so `fakeId` throws. -/
def c10BadEmail : String := "u33158307@e.co"

end Poker

/-- C10: counterexample.  For `u33158307@e.co` — unknown to storage — the
salted digest contains no `[89ab]` character, the fabrication throws, and
`queryAccount` rejects instead of resolving with a fabricated account. -/
theorem C10_counterexample :
    Poker.fakeId Poker.c10BadEmail = none ∧
    Poker.queryAccount Poker.emptyDb Poker.c10BadEmail =
      .error "TypeError: cannot read property 0 of null" := by
  constructor
  · decide
  · rfl

/-- C10 (amended): for every email that storage cannot resolve and whose
salted digest contains both a `[1-5]` and an `[89ab]` character (all but a
vanishing fraction), `queryAccount` resolves with the fabricated account —
a deterministic function of the email alone, in the same shape as a real
account's result. -/
theorem C10_query_fabricates (db : Poker.DB) (email fid : String)
    (habsent : db.accounts.find?
      (fun a => a.pendingEmail = email ∨ a.email = some email) = none)
    (hfid : Poker.fakeId email = some fid) :
    Poker.queryAccount db email =
      .ok ⟨fid, Poker.fakeProxyAddr email, some (Poker.fakeWalletJson email)⟩ := by
  unfold Poker.queryAccount
  rw [habsent, hfid]

/-- C10 witness: `C10_query_fabricates` for `a@b.co` against empty
storage, with the fabricated id evaluated from the digest. -/
theorem C10_query_fabricates_witness :
    Poker.queryAccount Poker.emptyDb "a@b.co" =
      .ok ⟨"5f864f79-7e8e-57cc-8fb1-90048a5ea7b0", Poker.fakeProxyAddr "a@b.co",
        some (Poker.fakeWalletJson "a@b.co")⟩ := by
  exact C10_query_fabricates Poker.emptyDb "a@b.co"
    "5f864f79-7e8e-57cc-8fb1-90048a5ea7b0" rfl (by decide)
